import Mathlib

/-!
Shallow embedding of the user-directory component (`src/src/comp.jsx`):
the data model, the fetch/state operations, and the derived pipeline
(query filter → city filter → sort → paginate), together with theorems
settling the specification claims.
-/

namespace Directory

/-- One company record, as in the JSONPlaceholder `users` payload. -/
structure Company where
  name : String
  catchPhrase : String
  deriving DecidableEq

/-- One address record.  The city field may be absent (`undefined` in JS). -/
structure Address where
  street : String
  suite : String
  city : Option String
  zipcode : String
  deriving DecidableEq

/-- One user record.  `company` and `address` may be absent: the source
reads them with optional chaining (`u.company?.name`, `u.address?.city`). -/
structure User where
  id : Nat
  name : String
  username : String
  email : String
  phone : String
  website : String
  company : Option Company
  address : Option Address
  deriving DecidableEq

/-- `PAGE_SIZE = 4` in the source. -/
def PAGE_SIZE : Nat := 4

/-- `u.address?.city` — absent when the address or its city is absent. -/
def cityOf (u : User) : Option String := u.address.bind Address.city

/-- `u.company?.name || ""` — the company name, empty string when absent. -/
def companyName (u : User) : String := (u.company.map Company.name).getD ""

/-- `String.prototype.toLowerCase`, modelled character-wise. -/
def strToLower (s : String) : String := ⟨s.data.map Char.toLower⟩

/-- `String.prototype.includes`: `pat` occurs as a contiguous substring of `hay`. -/
def containsSub (hay pat : String) : Bool :=
  hay.data.tails.any fun t => pat.data.isPrefixOf t

/-- The concatenation `u.name + u.username + u.email + (u.company?.name || "")`
that the query is matched against. -/
def searchText (u : User) : String := u.name ++ u.username ++ u.email ++ companyName u

/-- The `if (query) { list = list.filter(...) }` step; the empty string is
falsy in JS, so an empty query leaves the list unchanged. -/
def queryFiltered (query : String) (list : List User) : List User :=
  if query = "" then list
  else list.filter fun u => containsSub (strToLower (searchText u)) (strToLower query)

/-- The `if (cityFilter !== "All") { ... }` step: strict equality of
`u.address?.city` with the selected city (`undefined === c` is false). -/
def cityFiltered (cityFilter : String) (list : List User) : List User :=
  if cityFilter = "All" then list
  else list.filter fun u => decide (cityOf u = some cityFilter)

/-- `String.prototype.localeCompare`, modelled as the lexicographic string
order: negative, zero, or positive. -/
def localeCompare (s t : String) : Int :=
  if s < t then -1 else if s = t then 0 else 1

/-- The sort comparator of the source: names for `"name"`, company names
for `"company"`, and `0` (keep order) for any other key. -/
def userComparator (sortBy : String) (a b : User) : Int :=
  if sortBy = "name" then localeCompare a.name b.name
  else if sortBy = "company" then localeCompare (companyName a) (companyName b)
  else 0

/-- `list.sort(comparator)` — `Array.prototype.sort` is stable, so it is
modelled by the stable `mergeSort` with `le a b ↔ comparator a b ≤ 0`. -/
def sortStep (sortBy : String) (list : List User) : List User :=
  list.mergeSort fun a b => decide (userComparator sortBy a b ≤ 0)

/-- The whole `filtered` memo: query filter, then city filter, then sort. -/
def filteredUsers (users : List User) (query cityFilter sortBy : String) : List User :=
  sortStep sortBy (cityFiltered cityFilter (queryFiltered query users))

/-- `Math.ceil(filtered.length / PAGE_SIZE)`. -/
def totalPages (filtered : List User) : Nat :=
  ⌈(filtered.length : ℚ) / (PAGE_SIZE : ℚ)⌉₊

/-- `Array.prototype.slice(start, stop)` on integer arguments, following the
ECMAScript clamping rules (negative indices count from the end). -/
def jsSlice {α : Type} (l : List α) (start stop : Int) : List α :=
  let len : Int := l.length
  let s : Int := if start < 0 then max (len + start) 0 else min start len
  let e : Int := if stop < 0 then max (len + stop) 0 else min stop len
  (l.drop s.toNat).take (e - s).toNat

/-- `filtered.slice((page - 1) * PAGE_SIZE, page * PAGE_SIZE)`. -/
def paginated (filtered : List User) (page : Int) : List User :=
  jsSlice filtered ((page - 1) * (PAGE_SIZE : Int)) (page * (PAGE_SIZE : Int))

/-- `new Set(xs)` turned back into an array: first occurrence of each value,
in insertion order (`seen` accumulates the values already emitted). -/
def dedupFirst {α : Type} [DecidableEq α] (seen : List α) : List α → List α
  | [] => []
  | a :: l => if a ∈ seen then dedupFirst seen l else a :: dedupFirst (a :: seen) l

/-- Default `Array.prototype.sort` order on `string | undefined` elements:
`undefined` is always placed last, strings compare lexicographically. -/
def optLe (a b : Option String) : Bool :=
  match a, b with
  | none, none => true
  | none, some _ => false
  | some _, none => true
  | some s, some t => decide (s ≤ t)

/-- `Array.from(setCities).sort()`. -/
def jsSortCities (l : List (Option String)) : List (Option String) :=
  l.mergeSort optLe

/-- The sorted, deduplicated city values of the dataset (tail of `cities`). -/
def citiesTail (users : List User) : List (Option String) :=
  jsSortCities (dedupFirst [] (users.map cityOf))

/-- The `cities` memo: `["All", ...Array.from(new Set(users.map(u => u.address?.city))).sort()]`. -/
def cities (users : List User) : List (Option String) :=
  some "All" :: citiesTail users

/-- The component state: the seven `useState` hooks of `App`. -/
structure DirState where
  users : List User
  query : String
  cityFilter : String
  sortBy : String
  page : Int
  loading : Bool
  error : Option String
  deriving DecidableEq

/-- The initial hook values. -/
def initState : DirState :=
  { users := [], query := "", cityFilter := "All", sortBy := "name",
    page := 1, loading := true, error := none }

/-- Resolution of the `fetchUsers` effect: on success the dataset is replaced,
on failure the error message is set; `finally` clears the loading flag. -/
def fetchResolve (s : DirState) (result : Except String (List User)) : DirState :=
  match result with
  | .ok data => { s with users := data, loading := false }
  | .error _ =>
      { s with error := some "Failed to fetch users. Please try again.",
               loading := false }

/-- `handleQueryChange`: `setQuery(v); setPage(1)`. -/
def handleQueryChange (v : String) (s : DirState) : DirState :=
  { s with query := v, page := 1 }

/-- `handleCityChange`: `setCityFilter(v); setPage(1)`. -/
def handleCityChange (v : String) (s : DirState) : DirState :=
  { s with cityFilter := v, page := 1 }

/-- `handleSortChange`: `setSortBy(v)` only. -/
def handleSortChange (v : String) (s : DirState) : DirState :=
  { s with sortBy := v }

/-- The `filtered` memo evaluated on the current state. -/
def stateFiltered (s : DirState) : List User :=
  filteredUsers s.users s.query s.cityFilter s.sortBy

/-- `totalPages` evaluated on the current state. -/
def statePages (s : DirState) : Nat := totalPages (stateFiltered s)

/-- The Previous button's `disabled={page === 1}`. -/
def prevDisabled (s : DirState) : Bool := s.page == 1

/-- The Next button's `disabled={page === totalPages}`. -/
def nextDisabled (s : DirState) : Bool := s.page == (statePages s : Int)

/-- Clicking Previous: `setPage(p => Math.max(p - 1, 1))`. -/
def prevClick (s : DirState) : DirState :=
  { s with page := max (s.page - 1) 1 }

/-- Clicking Next: `setPage(p => Math.min(p + 1, totalPages))`. -/
def nextClick (s : DirState) : DirState :=
  { s with page := min (s.page + 1) (statePages s : Int) }

/-- The derived view: visible rows plus total page count. -/
def derivedView (users : List User) (query cityFilter sortBy : String) (page : Int) :
    List User × Nat :=
  (paginated (filteredUsers users query cityFilter sortBy) page,
   totalPages (filteredUsers users query cityFilter sortBy))

/-- `q'` differs from `q` only in letter case: the character-wise
lowercasings agree. -/
def caseVariant (q q' : String) : Prop := strToLower q = strToLower q'

instance (q q' : String) : Decidable (caseVariant q q') :=
  inferInstanceAs (Decidable (strToLower q = strToLower q'))

/-- Follows the spec's words (§3 invariants): category options are exactly
"All" followed by the distinct non-empty cities of the dataset, in
alphabetical order. -/
def specCityOptions (users : List User) : List String :=
  "All" ::
    (dedupFirst [] ((users.filterMap cityOf).filter fun c => decide (c ≠ ""))).mergeSort
      fun a b => decide (a ≤ b)

/-! ### Helper lemmas -/

lemma ceil_div_four (n : ℕ) : ⌈(n : ℚ) / 4⌉₊ = (n + 3) / 4 := by
  rcases Nat.eq_zero_or_pos ((n + 3) / 4) with h | h
  · have hn : n = 0 := by omega
    subst hn
    simp
  · rw [Nat.ceil_eq_iff (by omega)]
    constructor
    · rw [lt_div_iff₀ (by norm_num : (0 : ℚ) < 4)]
      have hlt : ((n + 3) / 4 - 1) * 4 < n := by omega
      exact_mod_cast hlt
    · rw [div_le_iff₀ (by norm_num : (0 : ℚ) < 4)]
      have hle : n ≤ ((n + 3) / 4) * 4 := by omega
      exact_mod_cast hle

lemma totalPages_eq (l : List User) : totalPages l = (l.length + 3) / 4 := by
  unfold totalPages PAGE_SIZE
  exact_mod_cast ceil_div_four l.length

lemma localeCompare_nonpos {s t : String} : localeCompare s t ≤ 0 ↔ s ≤ t := by
  unfold localeCompare
  split
  · exact ⟨fun _ => le_of_lt ‹s < t›, fun _ => by norm_num⟩
  · split
    · subst ‹s = t›
      simp
    · have hts : t < s := by
        rcases lt_trichotomy s t with h | h | h
        · exact absurd h ‹¬s < t›
        · exact absurd h ‹¬s = t›
        · exact h
      exact ⟨fun h => by norm_num at h, fun h => absurd h (not_le_of_lt hts)⟩

lemma jsSlice_nonneg {α : Type} (l : List α) (a b : Int) (h0 : 0 ≤ a) (hab : a ≤ b) :
    jsSlice l a b = (l.drop a.toNat).take (b.toNat - a.toNat) := by
  simp only [jsSlice]
  rw [if_neg (by omega), if_neg (by omega)]
  rcases le_or_lt a (l.length : Int) with ha | ha
  · rw [min_eq_left ha]
    rcases le_or_lt b (l.length : Int) with hb | hb
    · rw [min_eq_left hb]
      congr 1
      omega
    · rw [min_eq_right hb.le]
      rw [List.take_of_length_le (by rw [List.length_drop]; omega),
        List.take_of_length_le (by rw [List.length_drop]; omega)]
  · rw [min_eq_right ha.le]
    rw [List.drop_of_length_le (by omega), List.drop_of_length_le (by omega)]
    simp

lemma jsSlice_length_le {α : Type} (l : List α) (a b : Int) (hab : a ≤ b) :
    (jsSlice l a b).length ≤ (b - a).toNat := by
  simp only [jsSlice]
  simp only [List.length_take, List.length_drop, Int.min_def, Int.max_def, Nat.min_def]
  split_ifs <;> omega

lemma paginated_eq_drop_take (l : List User) (p : Nat) (hp : 1 ≤ p) :
    paginated l (p : Int) = (l.drop ((p - 1) * 4)).take 4 := by
  unfold paginated
  have h4 : ((PAGE_SIZE : Nat) : Int) = 4 := by norm_num [PAGE_SIZE]
  rw [h4]
  rw [jsSlice_nonneg l _ _ (by omega) (by omega)]
  have e1 : (((p : Int) - 1) * 4).toNat = (p - 1) * 4 := by omega
  rw [e1]
  have e2 : ((p : Int) * 4).toNat - (p - 1) * 4 = 4 := by omega
  rw [e2]

lemma userComparator_le_total (k : String) (a b : User) :
    (decide (userComparator k a b ≤ 0) || decide (userComparator k b a ≤ 0)) = true := by
  simp only [Bool.or_eq_true, decide_eq_true_eq]
  unfold userComparator
  split_ifs
  · rw [localeCompare_nonpos, localeCompare_nonpos]
    exact le_total _ _
  · rw [localeCompare_nonpos, localeCompare_nonpos]
    exact le_total _ _
  · left
    exact le_refl 0

lemma userComparator_le_trans (k : String) (a b c : User) :
    decide (userComparator k a b ≤ 0) = true → decide (userComparator k b c ≤ 0) = true →
    decide (userComparator k a c ≤ 0) = true := by
  simp only [decide_eq_true_eq]
  unfold userComparator
  split_ifs
  · rw [localeCompare_nonpos, localeCompare_nonpos, localeCompare_nonpos]
    exact le_trans
  · rw [localeCompare_nonpos, localeCompare_nonpos, localeCompare_nonpos]
    exact le_trans
  · intro _ _
    exact le_refl 0

lemma optLe_total (a b : Option String) : (optLe a b || optLe b a) = true := by
  cases a <;> cases b <;> simp [optLe]
  exact le_total _ _

lemma optLe_trans (a b c : Option String) :
    optLe a b = true → optLe b c = true → optLe a c = true := by
  cases a <;> cases b <;> cases c <;> simp [optLe]
  exact fun h1 h2 => le_trans h1 h2

lemma mem_dedupFirst {α : Type} [DecidableEq α] (x : α) :
    ∀ (seen l : List α), x ∈ dedupFirst seen l ↔ x ∈ l ∧ x ∉ seen := by
  intro seen l
  induction l generalizing seen with
  | nil => simp [dedupFirst]
  | cons a l ih =>
    simp only [dedupFirst]
    split_ifs with h
    · rw [ih]
      simp only [List.mem_cons]
      constructor
      · rintro ⟨hx, hs⟩
        exact ⟨Or.inr hx, hs⟩
      · rintro ⟨hx | hx, hs⟩
        · subst hx
          exact absurd h hs
        · exact ⟨hx, hs⟩
    · simp only [List.mem_cons, ih (a :: seen)]
      by_cases hxa : x = a <;> simp [hxa, h]

lemma nodup_dedupFirst {α : Type} [DecidableEq α] :
    ∀ (seen l : List α), (dedupFirst seen l).Nodup := by
  intro seen l
  induction l generalizing seen with
  | nil => simp [dedupFirst]
  | cons a l ih =>
    simp only [dedupFirst]
    split_ifs with h
    · exact ih seen
    · refine List.Nodup.cons ?_ (ih (a :: seen))
      intro hmem
      rw [mem_dedupFirst] at hmem
      exact hmem.2 (List.mem_cons_self a seen)

lemma strToLower_empty_iff (s : String) : strToLower s = "" ↔ s = "" := by
  unfold strToLower
  rw [String.ext_iff, String.ext_iff]
  show s.data.map Char.toLower = [] ↔ s.data = []
  rw [List.map_eq_nil_iff]

/-- A record found only by its company name: "acme" occurs in the company
name and nowhere in name, username or email. -/
def acmeUser : User :=
  { id := 1, name := "Leanne Graham", username := "Bret", email := "Sincere@april.biz",
    phone := "1-770-736-8031", website := "hildegard.org",
    company := some { name := "Acme Corp", catchPhrase := "synergize scalable supply-chains" },
    address := none }

/-- A record whose address has an empty city string. -/
def emptyCityUser : User :=
  { id := 2, name := "Ervin Howell", username := "Antonette", email := "Shanna@melissa.tv",
    phone := "", website := "",
    company := none,
    address := some { street := "Victor Plains", suite := "Suite 879",
                      city := some "", zipcode := "90566-7771" } }

/-- A small concrete dataset of five records. -/
def mkUser (i : Nat) (nm : String) : User :=
  { id := i, name := nm, username := nm, email := nm, phone := "", website := "",
    company := none, address := none }

def demoUsers : List User :=
  [mkUser 1 "a", mkUser 2 "b", mkUser 3 "c", mkUser 4 "d", mkUser 5 "e"]

/-! ### Claim theorems -/

/-- C1 (code bug): the spec says a page change is a no-op when `totalPages` is 0,
but on an empty dataset (`totalPages = 0`, page 1) the Next button is enabled
(`1 !== 0`) and clicking it sets the page to `Math.min(2, 0) = 0`, so the page
number leaves 1. -/
theorem next_click_escapes_when_no_pages :
    statePages (fetchResolve initState (.ok [])) = 0 ∧
    (fetchResolve initState (.ok [])).page = 1 ∧
    nextDisabled (fetchResolve initState (.ok [])) = false ∧
    (nextClick (fetchResolve initState (.ok []))).page = 0 := by
  have hp : statePages (fetchResolve initState (.ok [])) = 0 := by
    simp [statePages, stateFiltered, fetchResolve, initState, filteredUsers, queryFiltered,
      cityFiltered, sortStep, totalPages_eq]
  refine ⟨hp, rfl, ?_, ?_⟩
  · simp only [nextDisabled, hp]
    decide
  · simp only [nextClick, hp]
    decide

/-- C3: with a non-empty query, the filter keeps exactly the records whose
lowercased concatenation of name, username, email and company name (empty when
absent) contains the lowercased query as a substring. -/
theorem query_filter_keeps_exactly_matches (users : List User) (q : String) (hq : q ≠ "")
    (u : User) :
    u ∈ queryFiltered q users ↔
      u ∈ users ∧
        containsSub (strToLower (u.name ++ u.username ++ u.email ++ companyName u))
          (strToLower q) = true := by
  unfold queryFiltered
  rw [if_neg hq, List.mem_filter]
  rfl

/-- C3 witness: the query "acme" matches `acmeUser` only via its company name,
and the record is kept. -/
theorem query_filter_keeps_exactly_matches_witness :
    ("acme" : String) ≠ "" ∧
    acmeUser ∈ queryFiltered "acme" [acmeUser] ∧
    containsSub (strToLower (acmeUser.name ++ acmeUser.username ++ acmeUser.email))
      (strToLower "acme") = false :=
  ⟨by decide,
   (query_filter_keeps_exactly_matches [acmeUser] "acme" (by decide) acmeUser).mpr
     ⟨by decide, by decide⟩,
   by decide⟩

/-- C7: if the fetch fails, the error value is exactly the message, loading is
false, the dataset stays empty, and the category options are exactly ["All"]. -/
theorem fetch_failure_state (e : String) :
    (fetchResolve initState (.error e)).error =
        some "Failed to fetch users. Please try again." ∧
    (fetchResolve initState (.error e)).loading = false ∧
    (fetchResolve initState (.error e)).users = [] ∧
    cities (fetchResolve initState (.error e)).users = [some "All"] := by
  refine ⟨rfl, rfl, rfl, ?_⟩
  simp [cities, citiesTail, jsSortCities, dedupFirst, fetchResolve, initState]

/-- C8: `setQuery` and `setCategory` always reset the page to 1; `setSortKey`
replaces only the sort key and leaves the page (and all other fields) unchanged. -/
theorem query_category_reset_page_sort_key_does_not (s : DirState) (v : String) :
    (handleQueryChange v s).page = 1 ∧
    (handleCityChange v s).page = 1 ∧
    (handleSortChange v s).sortBy = v ∧
    (handleSortChange v s).page = s.page ∧
    (handleSortChange v s).users = s.users ∧
    (handleSortChange v s).query = s.query ∧
    (handleSortChange v s).cityFilter = s.cityFilter ∧
    (handleSortChange v s).loading = s.loading ∧
    (handleSortChange v s).error = s.error :=
  ⟨rfl, rfl, rfl, rfl, rfl, rfl, rfl, rfl, rfl⟩

/-- C9: the derived view is invariant under changing the letter case of the
query: case-variant queries produce identical views. -/
theorem case_variant_queries_same_view (q q' : String) (h : caseVariant q q')
    (users : List User) (c k : String) (p : Int) :
    derivedView users q c k p = derivedView users q' c k p := by
  have hlow : strToLower q = strToLower q' := h
  have hiff : q = "" ↔ q' = "" := by
    rw [← strToLower_empty_iff q, ← strToLower_empty_iff q', hlow]
  suffices hqf : queryFiltered q users = queryFiltered q' users by
    unfold derivedView filteredUsers
    rw [hqf]
  unfold queryFiltered
  by_cases hq0 : q = ""
  · rw [if_pos hq0, if_pos (hiff.mp hq0)]
  · rw [if_neg hq0, if_neg (fun h' => hq0 (hiff.mpr h')), hlow]

/-- C9 witness: the queries "AbC" and "aBc" are case-variants and give the same
view on a concrete dataset. -/
theorem case_variant_queries_same_view_witness :
    caseVariant "AbC" "aBc" ∧
    derivedView [acmeUser] "AbC" "All" "name" 1 = derivedView [acmeUser] "aBc" "All" "name" 1 :=
  ⟨by decide, case_variant_queries_same_view "AbC" "aBc" (by decide) [acmeUser] "All" "name" 1⟩

/-- C2 counterexample: a dataset with one record whose city is the empty string.
The code's option list contains the empty city, while the spec's list is exactly
["All"], so the claim fails as stated. -/
theorem cities_empty_city_appears :
    cities [emptyCityUser] = [some "All", some ""] ∧
    specCityOptions [emptyCityUser] = ["All"] := by
  constructor
  · simp [cities, citiesTail, jsSortCities, dedupFirst, cityOf, emptyCityUser]
  · simp [specCityOptions, cityOf, emptyCityUser, dedupFirst]

/-- C2 amended: the option list is "All" followed by the distinct city values of
the dataset — including an empty or absent city when one occurs — sorted
ascending with absent values last, each value exactly once. -/
theorem cities_characterization (users : List User) :
    cities users = some "All" :: citiesTail users ∧
    (citiesTail users).Pairwise (fun a b => optLe a b = true) ∧
    (citiesTail users).Nodup ∧
    (∀ v, v ∈ citiesTail users ↔ v ∈ users.map cityOf) := by
  refine ⟨rfl, ?_, ?_, ?_⟩
  · simpa [citiesTail, jsSortCities] using
      List.sorted_mergeSort optLe_trans optLe_total (dedupFirst [] (users.map cityOf))
  · simp only [citiesTail, jsSortCities]
    exact (List.mergeSort_perm _ _).nodup_iff.mpr (nodup_dedupFirst [] _)
  · intro v
    simp [citiesTail, jsSortCities, mem_dedupFirst]

/-- C6: the sorted sequence is a permutation of its input; with key "name" it is
non-decreasing on display names, with key "company" non-decreasing on company
names (empty when absent), and with any other key the order is unchanged. -/
theorem sort_step_by_key (k : String) (l : List User) :
    (sortStep k l).Perm l ∧
    (k = "name" → (sortStep k l).Pairwise (fun a b => a.name ≤ b.name)) ∧
    (k = "company" → (sortStep k l).Pairwise (fun a b => companyName a ≤ companyName b)) ∧
    (k ≠ "name" → k ≠ "company" → sortStep k l = l) := by
  unfold sortStep
  refine ⟨List.mergeSort_perm l _, ?_, ?_, ?_⟩
  · rintro rfl
    have hs := List.sorted_mergeSort
      (userComparator_le_trans "name") (userComparator_le_total "name") l
    refine hs.imp ?_
    intro a b hab
    have hle := of_decide_eq_true hab
    unfold userComparator at hle
    rw [if_pos rfl] at hle
    exact localeCompare_nonpos.mp hle
  · rintro rfl
    have hs := List.sorted_mergeSort
      (userComparator_le_trans "company") (userComparator_le_total "company") l
    refine hs.imp ?_
    intro a b hab
    have hle := of_decide_eq_true hab
    unfold userComparator at hle
    rw [if_neg (by decide), if_pos rfl] at hle
    exact localeCompare_nonpos.mp hle
  · intro h1 h2
    apply List.mergeSort_of_sorted
    apply List.pairwise_of_forall
    intro a b
    have h0 : userComparator k a b = 0 := by
      unfold userComparator
      rw [if_neg h1, if_neg h2]
    simp [h0]

/-- C6 witness: an unrecognized sort key leaves a concrete list unchanged. -/
theorem sort_step_by_key_witness : sortStep "id" demoUsers = demoUsers :=
  (sort_step_by_key "id" demoUsers).2.2.2 (by decide) (by decide)

lemma pageSize_cast : ((PAGE_SIZE : Nat) : Int) = 4 := by norm_num [PAGE_SIZE]

lemma range_chunks (l : List User) (n : Nat) :
    ((List.range n).map fun j => (l.drop (j * 4)).take 4).flatten = l.take (n * 4) := by
  induction n with
  | zero => simp
  | succ n ih =>
    rw [List.range_succ, List.map_append, List.flatten_append, ih]
    simp only [List.map_cons, List.map_nil, List.flatten_cons, List.flatten_nil,
      List.append_nil]
    rw [show (n + 1) * 4 = n * 4 + 4 from by ring, List.take_add]

lemma jsSlice_stop_zero {α : Type} (l : List α) (a : Int) : jsSlice l a 0 = [] := by
  simp only [jsSlice]
  rw [if_neg (by omega : ¬(0 : Int) < 0)]
  rw [min_eq_left (Int.natCast_nonneg l.length)]
  split_ifs with ha
  · have h0 : ((0 : Int) - max ((l.length : Int) + a) 0).toNat = 0 := by
      simp only [Int.max_def]
      split_ifs <;> omega
    rw [h0, List.take_zero]
  · have h0 : ((0 : Int) - min a (l.length : Int)).toNat = 0 := by
      simp only [Int.min_def]
      split_ifs <;> omega
    rw [h0, List.take_zero]

/-- C4: the total page count is ceil(C / 4) with page size 4, and for every page
p in [1, totalPages] the visible rows are exactly the records of the filtered
sequence at indices [(p−1)·4, p·4). -/
theorem pagination_window (l : List User) (p : Nat) (h1 : 1 ≤ p) (h2 : p ≤ totalPages l) :
    totalPages l = ⌈(l.length : ℚ) / 4⌉₊ ∧
    ∀ i : Nat, (paginated l (p : Int))[i]? = if i < 4 then l[(p - 1) * 4 + i]? else none := by
  constructor
  · unfold totalPages
    norm_num [PAGE_SIZE]
  · intro i
    rw [paginated_eq_drop_take l p h1]
    by_cases hi : i < 4
    · rw [if_pos hi, List.getElem?_take_of_lt hi, List.getElem?_drop]
    · rw [if_neg hi]
      apply List.getElem?_eq_none
      rw [List.length_take]
      exact le_trans (min_le_left _ _) (by omega)

/-- C4 witness: on a concrete 5-record list, page 2 is in range and its first
visible row is the record at index 4. -/
theorem pagination_window_witness :
    (1 ≤ 2 ∧ 2 ≤ totalPages demoUsers) ∧
    (paginated demoUsers (2 : Int))[0]? = demoUsers[4]? := by
  have h2 : 2 ≤ totalPages demoUsers := by
    rw [totalPages_eq]
    decide
  refine ⟨⟨by decide, h2⟩, ?_⟩
  have h := (pagination_window demoUsers 2 (by decide) h2).2 0
  simpa using h

/-- C5: concatenating the visible rows of pages 1 through totalPages in order
reproduces the filtered+sorted sequence exactly once. -/
theorem pages_concat_exact (users : List User) (q c k : String) :
    ((List.range (totalPages (filteredUsers users q c k))).map
        fun (j : Nat) => paginated (filteredUsers users q c k) ((j : Int) + 1)).flatten
      = filteredUsers users q c k := by
  generalize filteredUsers users q c k = l
  have hmap : ∀ j ∈ List.range (totalPages l),
      paginated l ((j : Int) + 1) = (l.drop (j * 4)).take 4 := by
    intro j _
    have h := paginated_eq_drop_take l (j + 1) (by omega)
    have hc : (((j + 1 : Nat)) : Int) = (j : Int) + 1 := by push_cast; ring
    rw [hc] at h
    simpa using h
  rw [List.map_congr_left hmap, range_chunks]
  apply List.take_of_length_le
  rw [totalPages_eq]
  omega

/-- C10 counterexample: for page −1 the window [(p−1)·4, p·4) = [−8, −4) lies
outside the sequence, yet the slice is non-empty on a 5-record list, because JS
slice counts negative indices from the end. -/
theorem negative_page_yields_rows :
    paginated demoUsers (-1) = [mkUser 1 "a"] := by decide

/-- C10 amended: computing the visible rows is total and always yields at most
4 rows; for every nonnegative page whose slice window misses the sequence
(p = 0, or p ≥ 1 with (p−1)·4 ≥ count) the result is empty.  (For negative
pages JS slice counts from the end of the sequence, so rows may appear.) -/
theorem paginated_total_and_bounded (l : List User) (p : Int) :
    (paginated l p).length ≤ 4 ∧
    (0 ≤ p → ((l.length : Int) ≤ (p - 1) * 4 ∨ p = 0) → paginated l p = []) := by
  constructor
  · unfold paginated
    rw [pageSize_cast]
    refine le_trans (jsSlice_length_le l _ _ (by omega)) ?_
    omega
  · intro hp hcase
    rcases hcase with hout | rfl
    · have hp1 : 1 ≤ p := by omega
      obtain ⟨n, rfl⟩ := Int.eq_ofNat_of_zero_le hp
      have hn1 : 1 ≤ n := by exact_mod_cast hp1
      rw [paginated_eq_drop_take l n hn1]
      rw [List.drop_of_length_le (by omega)]
      simp
    · unfold paginated
      rw [show (0 : Int) * ((PAGE_SIZE : Nat) : Int) = 0 from by norm_num]
      exact jsSlice_stop_zero l _

/-- C10 witness: page 3 of the 5-record list is past the end and shows no rows. -/
theorem paginated_total_and_bounded_witness :
    (0 : Int) ≤ 3 ∧ ((demoUsers.length : Int) ≤ ((3 : Int) - 1) * 4) ∧
    paginated demoUsers 3 = [] :=
  ⟨by decide, by decide,
   (paginated_total_and_bounded demoUsers 3).2 (by decide) (Or.inl (by decide))⟩

end Directory
